import Mathlib

/-!
Verification of the stabilization core of the Ercolino self-balancing
robot firmware.  The embedding below translates the firmware source
(the main sketch: setup, loop, calibrate, readSensor, getAccAngle,
blinkLed) into Lean definitions.  Machine integers are modelled as Int
with explicit reduction modulo 2^16 and 2^32 where the C types
(int16_t, int32_t, unsigned long) can wrap; floats are modelled as
exact rationals for the control pipeline and as reals for the
trigonometric angle observer.  External collaborators (the Kalman
filter, the PID corrector, the MPU6050 driver, the motor driver) are
modelled as oracle parameters, exactly as the spec scopes them out.
-/

namespace Ercolino

/-- Reduction of an integer into the signed 16-bit range, the effect of
storing an int-typed arithmetic result back into an int16_t variable. -/
def toInt16 (n : Int) : Int := (n + 32768) % 65536 - 32768

/-- Reduction of an integer into the signed 32-bit range, the effect of
int32_t arithmetic overflow wrapping. -/
def toInt32 (n : Int) : Int := (n + 2147483648) % 4294967296 - 2147483648

/-- Unsigned 32-bit subtraction, the semantics of the unsigned long
expression (time - oldTime) used for the cycle delta. -/
def usub32 (a b : Nat) : Nat := (a % 4294967296 + 4294967296 - b % 4294967296) % 4294967296

/-- Membership of an integer in the representable range of int16_t. -/
def inInt16 (n : Int) : Prop := -32768 ≤ n ∧ n < 32768

instance (n : Int) : Decidable (inInt16 n) := by unfold inInt16; infer_instance

/-- One six-axis reading from the MPU6050: the globals ax, ay, az, gx,
gy, gz filled by getMotion6.  The device delivers int16_t values. -/
structure Sample where
  ax : Int
  ay : Int
  az : Int
  gx : Int
  gy : Int
  gz : Int
deriving DecidableEq, Repr

/-- All six axes of a sample are within the int16_t range. -/
def Sample.bounded (s : Sample) : Prop :=
  inInt16 s.ax ∧ inInt16 s.ay ∧ inInt16 s.az ∧ inInt16 s.gx ∧ inInt16 s.gy ∧ inInt16 s.gz

instance (s : Sample) : Decidable (s.bounded) := by unfold Sample.bounded; infer_instance

/-- The six int32_t offset globals ax_offset .. gz_offset. -/
structure Offsets where
  ax_offset : Int
  ay_offset : Int
  az_offset : Int
  gx_offset : Int
  gy_offset : Int
  gz_offset : Int
deriving DecidableEq, Repr

/-- Result of the calibration procedure: the six offsets together with
the startPositionIsUp flag. -/
structure CalibResult where
  off : Offsets
  startPositionIsUp : Bool
deriving DecidableEq, Repr

/-- blinkLed switches the led state (the digitalWrite itself has no
bearing on any computation, only the ledState flip is retained). -/
def blinkLed (led : Bool) : Bool := !led

/-- Accumulator of the calibration loop: the six int32_t sums and the
led state that the ticker may flip during the loop. -/
structure CalibAcc where
  ax_sum : Int
  ay_sum : Int
  az_sum : Int
  gx_sum : Int
  gy_sum : Int
  gz_sum : Int
  led : Bool
deriving DecidableEq, Repr

/-- One iteration of the calibration loop body: ledTicker.update() may
invoke blinkLed (whether it fires at iteration i is timing dependent,
abstracted by the blinks predicate), then a raw sample is read and
added into the six int32_t sums. -/
def calibStep (read : Nat → Sample) (blinks : Nat → Bool) (acc : CalibAcc) (i : Nat) :
    CalibAcc :=
  let led := if blinks i then blinkLed acc.led else acc.led
  let s := read i
  { ax_sum := toInt32 (acc.ax_sum + s.ax)
    ay_sum := toInt32 (acc.ay_sum + s.ay)
    az_sum := toInt32 (acc.az_sum + s.az)
    gx_sum := toInt32 (acc.gx_sum + s.gx)
    gy_sum := toInt32 (acc.gy_sum + s.gy)
    gz_sum := toInt32 (acc.gz_sum + s.gz)
    led := led }

/-- Number of raw samples the calibration loop acquires (the literal
512 bounding the for loop). -/
def calibSampleCount : Nat := 512

/-- Fixed delay in milliseconds between consecutive calibration
samples (the delay(5) call ending each loop iteration). -/
def calibSampleDelayMs : Nat := 5

/-- Tail of the calibrate procedure, after the sampling loop: each
int32_t sum is divided by 512 (the arithmetic right shift by 9 of an
int32_t equals floor division by 512, which Int division by a positive
divisor also is), and the sign of the gravity-axis mean selects the
orientation flag together with the plus-or-minus 16384 full-scale
adjustment of the gravity-axis offset. -/
def calibFinish (acc : CalibAcc) : CalibResult × Bool :=
  if acc.ax_sum / 512 > 0 then
    (⟨⟨acc.ax_sum / 512 - 16384, acc.ay_sum / 512, acc.az_sum / 512,
       acc.gx_sum / 512, acc.gy_sum / 512, acc.gz_sum / 512⟩, true⟩, acc.led)
  else
    (⟨⟨acc.ax_sum / 512 + 16384, acc.ay_sum / 512, acc.az_sum / 512,
       acc.gx_sum / 512, acc.gy_sum / 512, acc.gz_sum / 512⟩, false⟩, acc.led)

/-- The calibrate procedure: 512 raw samples are acquired and summed
per axis by the loop, then calibFinish computes the six offsets and
the orientation flag.  The function also returns the final led state. -/
def calibrate (read : Nat → Sample) (blinks : Nat → Bool) (led0 : Bool) :
    CalibResult × Bool :=
  calibFinish ((List.range 512).foldl (calibStep read blinks)
    { ax_sum := 0, ay_sum := 0, az_sum := 0, gx_sum := 0, gy_sum := 0, gz_sum := 0, led := led0 })

/-- Exact sum of one axis over the 512 calibration samples (notation
used by the theorems to state what the wrapped int32_t sums equal). -/
def axisSum (read : Nat → Sample) (f : Sample → Int) : Int :=
  (((List.range 512).map fun i => f (read i))).sum

/-- Arithmetic mean (floor) of one axis over the 512 samples. -/
def axisMean (read : Nat → Sample) (f : Sample → Int) : Int :=
  axisSum read f / 512

/-- readSensor: a raw sample is acquired and the offsets are
subtracted component-wise; the subtraction is computed in 32-bit
arithmetic and stored back into the int16_t globals, hence the
reduction modulo 2^16. -/
def readSensor (raw : Sample) (o : Offsets) : Sample :=
  { ax := toInt16 (raw.ax - o.ax_offset)
    ay := toInt16 (raw.ay - o.ay_offset)
    az := toInt16 (raw.az - o.az_offset)
    gx := toInt16 (raw.gx - o.gx_offset)
    gy := toInt16 (raw.gy - o.gy_offset)
    gz := toInt16 (raw.gz - o.gz_offset) }

/-- Wrapping after an already wrapped partial sum is the same as
wrapping the exact sum once: int32_t addition is associative modulo
2^32. -/
lemma toInt32_add_left (a b : Int) : toInt32 (toInt32 a + b) = toInt32 (a + b) := by
  unfold toInt32; omega

/-- toInt32 is the identity on the representable range. -/
lemma toInt32_eq_self (n : Int) (h1 : -2147483648 ≤ n) (h2 : n < 2147483648) :
    toInt32 n = n := by
  unfold toInt32; omega

/-- A left fold of wrapped additions computes the wrap of the exact sum. -/
lemma foldl_wadd (g : Nat → Int) :
    ∀ (l : List Nat) (b : Int),
      l.foldl (fun a i => toInt32 (a + g i)) (toInt32 b) = toInt32 (b + (l.map g).sum) := by
  intro l
  induction l with
  | nil => intro b; simp
  | cons i t ih =>
    intro b
    simp only [List.foldl_cons, List.map_cons, List.sum_cons]
    rw [toInt32_add_left, ih (b + g i), add_assoc]

/-- The calibration fold decomposes into seven independent folds, one
per int32_t sum and one for the led state; in particular the six sums
never read the led state and the led never reads the sums. -/
lemma calib_foldl (read : Nat → Sample) (blinks : Nat → Bool) :
    ∀ (l : List Nat) (acc : CalibAcc),
      l.foldl (calibStep read blinks) acc =
        { ax_sum := l.foldl (fun a i => toInt32 (a + (read i).ax)) acc.ax_sum
          ay_sum := l.foldl (fun a i => toInt32 (a + (read i).ay)) acc.ay_sum
          az_sum := l.foldl (fun a i => toInt32 (a + (read i).az)) acc.az_sum
          gx_sum := l.foldl (fun a i => toInt32 (a + (read i).gx)) acc.gx_sum
          gy_sum := l.foldl (fun a i => toInt32 (a + (read i).gy)) acc.gy_sum
          gz_sum := l.foldl (fun a i => toInt32 (a + (read i).gz)) acc.gz_sum
          led := l.foldl (fun b i => if blinks i then blinkLed b else b) acc.led } := by
  intro l
  induction l with
  | nil => intro acc; rfl
  | cons i t ih =>
    intro acc
    simp only [List.foldl_cons]
    rw [ih]
    rfl

/-- Sum of a list of int16-range values is bounded linearly in its length. -/
lemma sum_bound :
    ∀ (l : List Int), (∀ x ∈ l, -32768 ≤ x ∧ x < 32768) →
      -32768 * (l.length : Int) ≤ l.sum ∧ l.sum ≤ 32768 * (l.length : Int) := by
  intro l
  induction l with
  | nil => intro _; simp
  | cons x t ih =>
    intro h
    have hx := h x (List.mem_cons_self x t)
    have ht := ih (fun y hy => h y (List.mem_cons_of_mem x hy))
    simp only [List.sum_cons, List.length_cons]
    push_cast
    omega

/-- For int16-range samples the wrapped per-axis calibration fold
computes the exact axis sum: 512 samples cannot overflow an int32_t. -/
lemma axis_fold (read : Nat → Sample) (f : Sample → Int)
    (hf : ∀ i, i < 512 → -32768 ≤ f (read i) ∧ f (read i) < 32768) :
    (List.range 512).foldl (fun a i => toInt32 (a + f (read i))) 0 = axisSum read f := by
  have h0 : (0 : Int) = toInt32 0 := by decide
  rw [h0, foldl_wadd]
  have hmem : ∀ x ∈ (List.range 512).map fun i => f (read i), -32768 ≤ x ∧ x < 32768 := by
    intro x hx
    rcases List.mem_map.mp hx with ⟨i, hi, rfl⟩
    exact hf i (List.mem_range.mp hi)
  have hb := sum_bound _ hmem
  simp only [List.length_map, List.length_range] at hb
  unfold axisSum
  rw [zero_add]
  apply toInt32_eq_self <;> omega

/-- Each component of a bounded sample is in int16 range. -/
lemma Sample.bounded_parts {s : Sample} (h : s.bounded) :
    (-32768 ≤ s.ax ∧ s.ax < 32768) ∧ (-32768 ≤ s.ay ∧ s.ay < 32768)
    ∧ (-32768 ≤ s.az ∧ s.az < 32768) ∧ (-32768 ≤ s.gx ∧ s.gx < 32768)
    ∧ (-32768 ≤ s.gy ∧ s.gy < 32768) ∧ (-32768 ≤ s.gz ∧ s.gz < 32768) := by
  obtain ⟨h1, h2, h3, h4, h5, h6⟩ := h
  exact ⟨h1, h2, h3, h4, h5, h6⟩

/-- Specialization of the fold decomposition to the zero-initialized
accumulator the calibration loop starts from. -/
lemma calib_foldl_zero (read : Nat → Sample) (blinks : Nat → Bool) (led0 : Bool) :
    (List.range 512).foldl (calibStep read blinks)
        { ax_sum := 0, ay_sum := 0, az_sum := 0, gx_sum := 0, gy_sum := 0, gz_sum := 0,
          led := led0 } =
      { ax_sum := (List.range 512).foldl (fun a i => toInt32 (a + (read i).ax)) 0
        ay_sum := (List.range 512).foldl (fun a i => toInt32 (a + (read i).ay)) 0
        az_sum := (List.range 512).foldl (fun a i => toInt32 (a + (read i).az)) 0
        gx_sum := (List.range 512).foldl (fun a i => toInt32 (a + (read i).gx)) 0
        gy_sum := (List.range 512).foldl (fun a i => toInt32 (a + (read i).gy)) 0
        gz_sum := (List.range 512).foldl (fun a i => toInt32 (a + (read i).gz)) 0
        led := (List.range 512).foldl (fun b i => if blinks i then blinkLed b else b) led0 } := by
  rw [calib_foldl]

/-- For int16-range sample streams the calibration accumulator holds
the exact per-axis sums: no int32_t wrap occurs. -/
lemma calib_acc (read : Nat → Sample) (blinks : Nat → Bool) (led0 : Bool)
    (hb : ∀ i, i < 512 → (read i).bounded) :
    (List.range 512).foldl (calibStep read blinks)
        { ax_sum := 0, ay_sum := 0, az_sum := 0, gx_sum := 0, gy_sum := 0, gz_sum := 0,
          led := led0 } =
      { ax_sum := axisSum read Sample.ax
        ay_sum := axisSum read Sample.ay
        az_sum := axisSum read Sample.az
        gx_sum := axisSum read Sample.gx
        gy_sum := axisSum read Sample.gy
        gz_sum := axisSum read Sample.gz
        led := (List.range 512).foldl (fun b i => if blinks i then blinkLed b else b) led0 } := by
  rw [calib_foldl_zero]
  rw [axis_fold read Sample.ax (fun i hi => (Sample.bounded_parts (hb i hi)).1),
    axis_fold read Sample.ay (fun i hi => (Sample.bounded_parts (hb i hi)).2.1),
    axis_fold read Sample.az (fun i hi => (Sample.bounded_parts (hb i hi)).2.2.1),
    axis_fold read Sample.gx (fun i hi => (Sample.bounded_parts (hb i hi)).2.2.2.1),
    axis_fold read Sample.gy (fun i hi => (Sample.bounded_parts (hb i hi)).2.2.2.2.1),
    axis_fold read Sample.gz (fun i hi => (Sample.bounded_parts (hb i hi)).2.2.2.2.2)]

/-- Master closed form: for int16-range sample streams, calibrate is
calibFinish applied to the exact per-axis sums. -/
lemma calibrate_acc (read : Nat → Sample) (blinks : Nat → Bool) (led0 : Bool)
    (hb : ∀ i, i < 512 → (read i).bounded) :
    calibrate read blinks led0 =
      calibFinish
        { ax_sum := axisSum read Sample.ax
          ay_sum := axisSum read Sample.ay
          az_sum := axisSum read Sample.az
          gx_sum := axisSum read Sample.gx
          gy_sum := axisSum read Sample.gy
          gz_sum := axisSum read Sample.gz
          led := (List.range 512).foldl (fun b i => if blinks i then blinkLed b else b) led0 } := by
  unfold calibrate
  rw [calib_acc read blinks led0 hb]

/-- Evaluation of calibFinish on an explicit accumulator: the five
non-gravity offsets are the floor means, the flag is the sign test and
the gravity offset gets the full-scale adjustment. -/
lemma calibFinish_eval (s1 s2 s3 s4 s5 s6 : Int) (led : Bool) :
    ((calibFinish ⟨s1, s2, s3, s4, s5, s6, led⟩).1.off.ay_offset = s2 / 512)
    ∧ ((calibFinish ⟨s1, s2, s3, s4, s5, s6, led⟩).1.off.az_offset = s3 / 512)
    ∧ ((calibFinish ⟨s1, s2, s3, s4, s5, s6, led⟩).1.off.gx_offset = s4 / 512)
    ∧ ((calibFinish ⟨s1, s2, s3, s4, s5, s6, led⟩).1.off.gy_offset = s5 / 512)
    ∧ ((calibFinish ⟨s1, s2, s3, s4, s5, s6, led⟩).1.off.gz_offset = s6 / 512)
    ∧ ((calibFinish ⟨s1, s2, s3, s4, s5, s6, led⟩).1.startPositionIsUp = true
        ↔ s1 / 512 > 0)
    ∧ (s1 / 512 > 0 →
        (calibFinish ⟨s1, s2, s3, s4, s5, s6, led⟩).1.off.ax_offset = s1 / 512 - 16384)
    ∧ (¬ s1 / 512 > 0 →
        (calibFinish ⟨s1, s2, s3, s4, s5, s6, led⟩).1.off.ax_offset = s1 / 512 + 16384) := by
  unfold calibFinish
  by_cases h : s1 / 512 > 0
  · rw [if_pos h]
    exact ⟨rfl, rfl, rfl, rfl, rfl, by simpa using h, fun _ => rfl, fun hn => absurd h hn⟩
  · rw [if_neg h]
    exact ⟨rfl, rfl, rfl, rfl, rfl, by simpa using h, fun hp => absurd hp h, fun _ => rfl⟩

/-- The calibration fold result depends on the sample stream only at
indices the loop actually visits. -/
lemma calib_read_congr (read read2 : Nat → Sample) (blinks : Nat → Bool) :
    ∀ (l : List Nat) (acc : CalibAcc), (∀ i ∈ l, read i = read2 i) →
      l.foldl (calibStep read blinks) acc = l.foldl (calibStep read2 blinks) acc := by
  intro l
  induction l with
  | nil => intro acc _; rfl
  | cons i t ih =>
    intro acc h
    simp only [List.foldl_cons]
    rw [show calibStep read blinks acc i = calibStep read2 blinks acc i from by
      unfold calibStep; rw [h i (List.mem_cons_self i t)]]
    exact ih _ (fun j hj => h j (List.mem_cons_of_mem i hj))

lemma axisMean_def (read : Nat → Sample) (f : Sample → Int) :
    axisMean read f = axisSum read f / 512 := rfl

/-- Closed form of the calibration results for int16-range streams,
expressed through the exact axis sums. -/
lemma calibrate_parts (read : Nat → Sample) (blinks : Nat → Bool) (led0 : Bool)
    (hb : ∀ i, i < 512 → (read i).bounded) :
    ((calibrate read blinks led0).1.off.ay_offset = axisSum read Sample.ay / 512)
    ∧ ((calibrate read blinks led0).1.off.az_offset = axisSum read Sample.az / 512)
    ∧ ((calibrate read blinks led0).1.off.gx_offset = axisSum read Sample.gx / 512)
    ∧ ((calibrate read blinks led0).1.off.gy_offset = axisSum read Sample.gy / 512)
    ∧ ((calibrate read blinks led0).1.off.gz_offset = axisSum read Sample.gz / 512)
    ∧ ((calibrate read blinks led0).1.startPositionIsUp = true
        ↔ axisSum read Sample.ax / 512 > 0)
    ∧ (axisSum read Sample.ax / 512 > 0 →
        (calibrate read blinks led0).1.off.ax_offset = axisSum read Sample.ax / 512 - 16384)
    ∧ (¬ axisSum read Sample.ax / 512 > 0 →
        (calibrate read blinks led0).1.off.ax_offset
          = axisSum read Sample.ax / 512 + 16384) := by
  have key := calibrate_acc read blinks led0 hb
  rw [key]
  exact calibFinish_eval (axisSum read Sample.ax) (axisSum read Sample.ay)
    (axisSum read Sample.az) (axisSum read Sample.gx) (axisSum read Sample.gy)
    (axisSum read Sample.gz)
    ((List.range 512).foldl (fun b i => if blinks i then blinkLed b else b) led0)

/-- The first component of calibFinish depends only on the six sums,
never on the led state. -/
lemma calibFinish_led_irrel (a b : CalibAcc)
    (h1 : a.ax_sum = b.ax_sum) (h2 : a.ay_sum = b.ay_sum) (h3 : a.az_sum = b.az_sum)
    (h4 : a.gx_sum = b.gx_sum) (h5 : a.gy_sum = b.gy_sum) (h6 : a.gz_sum = b.gz_sum) :
    (calibFinish a).1 = (calibFinish b).1 := by
  unfold calibFinish
  rw [h1, h2, h3, h4, h5, h6]
  by_cases h : b.ax_sum / 512 > 0
  · rw [if_pos h, if_pos h]
  · rw [if_neg h, if_neg h]

/-- Sum of one axis when that axis is the constant v on all 512
samples. -/
lemma axisSum_of_const (read : Nat → Sample) (f : Sample → Int) (v : Int)
    (h : ∀ i, i < 512 → f (read i) = v) :
    axisSum read f = 512 * v := by
  unfold axisSum
  have hrep : ((List.range 512).map fun i => f (read i)) = List.replicate 512 v := by
    apply List.eq_replicate_iff.mpr
    constructor
    · simp
    · intro b hb
      rcases List.mem_map.mp hb with ⟨i, hi, rfl⟩
      exact h i (List.mem_range.mp hi)
  rw [hrep, List.sum_replicate]
  simp [nsmul_eq_mul]

/-- Mean of one axis when that axis is the constant v on all 512
samples: the integer mean is exact since 512 divides the sum. -/
lemma axisMean_of_const (read : Nat → Sample) (f : Sample → Int) (v : Int)
    (h : ∀ i, i < 512 → f (read i) = v) :
    axisMean read f = v := by
  unfold axisMean
  rw [axisSum_of_const read f v h]
  exact Int.mul_ediv_cancel_left v (by norm_num)

/-- A drive decision reaching the motor driver: a signed drive command
via runMotors, or an explicit stop via stopMotors. -/
inductive MotorAction where
  | run : ℚ → MotorAction
  | stop : MotorAction
deriving DecidableEq, Repr

/-- The actuation safety gate at the end of each loop iteration: the
motors receive the PID output only when the absolute fused angle is
strictly below 30 degrees, and an explicit stop otherwise. -/
def motorAction (kalmanAngle pidOutput : ℚ) : MotorAction :=
  if |kalmanAngle| < 30 then MotorAction.run pidOutput else MotorAction.stop

/-- Mutable state the loop carries across iterations: the six offsets
(written once by calibration) and the previous-cycle timestamp. -/
structure LoopState where
  off : Offsets
  oldTime : Nat
deriving DecidableEq, Repr

/-- Per-cycle transient values, recorded for the theorems: the cycle
delta, the converted physical measures, the two oracle outputs and the
gated motor action. -/
structure CycleOut where
  dt_usec : Nat
  dt_sec : ℚ
  gyroYRate : ℚ
  accX : ℚ
  accZ : ℚ
  accAngle : ℚ
  kalmanAngle : ℚ
  pidOutput : ℚ
  action : MotorAction
deriving DecidableEq, Repr

/-- One iteration of loop().  External collaborators are oracles: aO
stands for the float computation of getAccAngle (modelled exactly over
the reals separately), kO for KFilter.getAngle and pO for updatePID.
The cycle reads the clock once at its start (the time argument),
computes the unsigned 32-bit delta against the stored previous
timestamp, acquires and offset-corrects a raw sample, converts to
physical units, runs the two oracles, applies the safety gate, and
finally stores the start-of-cycle clock value as the new previous
timestamp. -/
def loopStep (aO : ℚ → ℚ → ℚ) (kO : ℚ → ℚ → ℚ → ℚ) (pO : ℚ → ℚ → ℚ)
    (s : LoopState) (time : Nat) (raw : Sample) : LoopState × CycleOut :=
  let dt_usec := usub32 time s.oldTime
  let dt_sec : ℚ := (dt_usec : ℚ) / 1000000
  let c := readSensor raw s.off
  let gyroYRate : ℚ := (c.gy : ℚ) / (131072 / 1000)
  let accX : ℚ := ((c.ax : ℚ) * (981 / 100)) / 16384
  let accZ : ℚ := ((c.az : ℚ) * (981 / 100)) / 16384
  let accAngle := aO accX accZ
  let kalmanAngle := kO accAngle gyroYRate dt_sec
  let pidOutput := pO kalmanAngle dt_sec
  (⟨s.off, time % 4294967296⟩,
   ⟨dt_usec, dt_sec, gyroYRate, accX, accZ, accAngle, kalmanAngle, pidOutput,
    motorAction kalmanAngle pidOutput⟩)

/-- Seed angle for the Kalman filter, chosen from the orientation flag
at the end of setup: plus 90 degrees when the reference axis points
up, minus 90 when it points down. -/
def seedAngle (up : Bool) : ℚ := if up then 90 else -90

/-- Outcome of setup: either the process hangs in the empty while loop
after a failed connectivity test, or it is ready to stabilize with the
calibrated state and the Kalman seed angle. -/
inductive SetupResult where
  | halted : SetupResult
  | ready : LoopState → ℚ → SetupResult
deriving DecidableEq, Repr

/-- setup(): the sensor connectivity test gates everything; on failure
the process halts in while(1) before calibration, on success the
calibration runs, the Kalman filter is seeded from the orientation
flag and the previous-timestamp is initialized. -/
def setup (conn_ok : Bool) (read : Nat → Sample) (blinks : Nat → Bool) (led0 : Bool)
    (startTime : Nat) : SetupResult :=
  if conn_ok then
    let c := (calibrate read blinks led0).1
    SetupResult.ready ⟨c.off, startTime % 4294967296⟩ (seedAngle c.startPositionIsUp)
  else
    SetupResult.halted

/-- Repeated loop iterations from a state, over a schedule of clock
readings and raw samples; returns the final state and the motor
actions issued, in order. -/
def runFrom (aO : ℚ → ℚ → ℚ) (kO : ℚ → ℚ → ℚ → ℚ) (pO : ℚ → ℚ → ℚ) :
    LoopState → List (Nat × Sample) → LoopState × List MotorAction
  | s, [] => (s, [])
  | s, (t, raw) :: rest =>
    let p := loopStep aO kO pO s t raw
    let r := runFrom aO kO pO p.1 rest
    (r.1, p.2.action :: r.2)

/-- The whole process after setup: a halted process issues no motor
action at all, a ready one runs the loop over the schedule. -/
def runActions (aO : ℚ → ℚ → ℚ) (kO : ℚ → ℚ → ℚ → ℚ) (pO : ℚ → ℚ → ℚ)
    (r : SetupResult) (sched : List (Nat × Sample)) : List MotorAction :=
  match r with
  | SetupResult.halted => []
  | SetupResult.ready s _ => (runFrom aO kO pO s sched).2

/-- Model of the C library atan2: the four-quadrant inverse tangent,
with the branch structure of the standard definition (floats modelled
as reals). -/
noncomputable def atan2 (y x : ℝ) : ℝ :=
  if 0 < x then Real.arctan (y / x)
  else if x < 0 then
    if 0 ≤ y then Real.arctan (y / x) + Real.pi
    else Real.arctan (y / x) - Real.pi
  else
    if 0 < y then Real.pi / 2
    else if y < 0 then -(Real.pi / 2)
    else 0

/-- getAccAngle: the geometric robot angle in degrees obtained from
the two acceleration components, atan2(accX, -accZ) scaled by
RAD_TO_DEG = 180 / pi.  A pure function of its two arguments. -/
noncomputable def getAccAngle (accX accZ : ℝ) : ℝ :=
  atan2 accX (-accZ) * (180 / Real.pi)

lemma atan2_of_pos {y x : ℝ} (hx : 0 < x) : atan2 y x = Real.arctan (y / x) := by
  unfold atan2
  rw [if_pos hx]

lemma atan2_of_neg_nonneg {y x : ℝ} (hx : x < 0) (hy : 0 ≤ y) :
    atan2 y x = Real.arctan (y / x) + Real.pi := by
  unfold atan2
  rw [if_neg (by linarith : ¬ 0 < x), if_pos hx, if_pos hy]

lemma atan2_of_neg_neg {y x : ℝ} (hx : x < 0) (hy : y < 0) :
    atan2 y x = Real.arctan (y / x) - Real.pi := by
  unfold atan2
  rw [if_neg (by linarith : ¬ 0 < x), if_pos hx, if_neg (not_le.mpr hy)]

lemma atan2_zero_of_pos {y : ℝ} (hy : 0 < y) : atan2 y 0 = Real.pi / 2 := by
  unfold atan2
  rw [if_neg (lt_irrefl 0), if_neg (lt_irrefl 0), if_pos hy]

lemma atan2_zero_of_neg {y : ℝ} (hy : y < 0) : atan2 y 0 = -(Real.pi / 2) := by
  unfold atan2
  rw [if_neg (lt_irrefl 0), if_neg (lt_irrefl 0), if_neg (by linarith : ¬ 0 < y),
    if_pos hy]

lemma atan2_zero_zero : atan2 0 0 = 0 := by
  unfold atan2
  rw [if_neg (lt_irrefl 0), if_neg (lt_irrefl 0), if_neg (lt_irrefl 0), if_neg (lt_irrefl 0)]

/-- atan2 of a positive first argument lands strictly inside the upper
half turn. -/
lemma atan2_pos_bounds {y : ℝ} (x : ℝ) (hy : 0 < y) :
    0 < atan2 y x ∧ atan2 y x ≤ Real.pi := by
  have hpi := Real.pi_pos
  rcases lt_trichotomy 0 x with hx | hx | hx
  · rw [atan2_of_pos hx]
    have hq : 0 < y / x := div_pos hy hx
    have h1 : Real.arctan 0 < Real.arctan (y / x) := Real.arctan_strictMono hq
    rw [Real.arctan_zero] at h1
    have h2 := Real.arctan_lt_pi_div_two (y / x)
    exact ⟨h1, by linarith⟩
  · rw [← hx, atan2_zero_of_pos hy]
    constructor <;> linarith
  · rw [atan2_of_neg_nonneg hx hy.le]
    have hq : y / x < 0 := div_neg_of_pos_of_neg hy hx
    have h1 : Real.arctan (y / x) < Real.arctan 0 := Real.arctan_strictMono hq
    rw [Real.arctan_zero] at h1
    have h2 := Real.neg_pi_div_two_lt_arctan (y / x)
    constructor <;> linarith

/-- atan2 of a negative first argument lands strictly inside the lower
half turn. -/
lemma atan2_neg_bounds {y : ℝ} (x : ℝ) (hy : y < 0) :
    -Real.pi ≤ atan2 y x ∧ atan2 y x < 0 := by
  have hpi := Real.pi_pos
  rcases lt_trichotomy 0 x with hx | hx | hx
  · rw [atan2_of_pos hx]
    have hq : y / x < 0 := div_neg_of_neg_of_pos hy hx
    have h1 : Real.arctan (y / x) < Real.arctan 0 := Real.arctan_strictMono hq
    rw [Real.arctan_zero] at h1
    have h2 := Real.neg_pi_div_two_lt_arctan (y / x)
    constructor <;> linarith
  · rw [← hx, atan2_zero_of_neg hy]
    constructor <;> linarith
  · rw [atan2_of_neg_neg hx hy]
    have hq : 0 < y / x := div_pos_of_neg_of_neg hy hx
    have h1 : Real.arctan 0 < Real.arctan (y / x) := Real.arctan_strictMono hq
    rw [Real.arctan_zero] at h1
    have h2 := Real.arctan_lt_pi_div_two (y / x)
    constructor <;> linarith

/-- Scaling a radian value in the upper half turn by RAD_TO_DEG gives
a degree value in (0, 180]. -/
lemma deg_scale_pos {v : ℝ} (h1 : 0 < v) (h2 : v ≤ Real.pi) :
    0 < v * (180 / Real.pi) ∧ v * (180 / Real.pi) ≤ 180 := by
  have hpi := Real.pi_pos
  constructor
  · exact mul_pos h1 (by positivity)
  · have hmul : v * (180 / Real.pi) ≤ Real.pi * (180 / Real.pi) :=
      mul_le_mul_of_nonneg_right h2 (by positivity)
    have heq : Real.pi * (180 / Real.pi) = 180 := by
      field_simp
    linarith

/-- Scaling a radian value in the lower half turn by RAD_TO_DEG gives
a degree value in [-180, 0). -/
lemma deg_scale_neg {v : ℝ} (h1 : -Real.pi ≤ v) (h2 : v < 0) :
    -180 ≤ v * (180 / Real.pi) ∧ v * (180 / Real.pi) < 0 := by
  have hpi := Real.pi_pos
  constructor
  · have hmul : -Real.pi * (180 / Real.pi) ≤ v * (180 / Real.pi) :=
      mul_le_mul_of_nonneg_right h1 (by positivity)
    have heq : -Real.pi * (180 / Real.pi) = -180 := by
      field_simp
      ring
    linarith
  · exact mul_neg_of_neg_of_pos h2 (by positivity)

/-- C1: each cycle the actuation decision forwards the PID drive
command to the motors unchanged exactly when the absolute fused angle
is strictly below 30 degrees, and issues an explicit stop exactly when
it is 30 or more (so the actuator never receives a drive command,
nonzero or not, outside that range); the boundary values -29.9, 0 and
29.9 forward while 30, 30.1, -30, 90 and -90 stop; and the loop step
applies exactly this gate to the fused angle and PID output of the
cycle. -/
theorem C1_safety_gate :
    (∀ a c : ℚ, (motorAction a c = MotorAction.run c ↔ |a| < 30)
      ∧ (motorAction a c = MotorAction.stop ↔ 30 ≤ |a|))
    ∧ (∀ c : ℚ, motorAction (-299/10) c = MotorAction.run c
      ∧ motorAction 0 c = MotorAction.run c
      ∧ motorAction (299/10) c = MotorAction.run c
      ∧ motorAction 30 c = MotorAction.stop
      ∧ motorAction (301/10) c = MotorAction.stop
      ∧ motorAction (-30) c = MotorAction.stop
      ∧ motorAction 90 c = MotorAction.stop
      ∧ motorAction (-90) c = MotorAction.stop)
    ∧ (∀ aO kO pO s t raw,
        (loopStep aO kO pO s t raw).2.action
          = motorAction (loopStep aO kO pO s t raw).2.kalmanAngle
              (loopStep aO kO pO s t raw).2.pidOutput) := by
  have hrun : ∀ a c : ℚ, |a| < 30 → motorAction a c = MotorAction.run c := by
    intro a c h
    simp only [motorAction, if_pos h]
  have hstop : ∀ a c : ℚ, 30 ≤ |a| → motorAction a c = MotorAction.stop := by
    intro a c h
    simp only [motorAction, if_neg (not_lt.mpr h)]
  refine ⟨fun a c => ⟨?_, ?_⟩, fun c => ?_, fun aO kO pO s t raw => rfl⟩
  · by_cases h : |a| < 30
    · exact iff_of_true (hrun a c h) h
    · simp only [motorAction, if_neg h]
      exact iff_of_false (by simp) h
  · by_cases h : |a| < 30
    · simp only [motorAction, if_pos h]
      exact iff_of_false (by simp) (not_le.mpr h)
    · exact iff_of_true (hstop a c (not_lt.mp h)) (not_lt.mp h)
  · refine ⟨?_, ?_, ?_, ?_, ?_, ?_, ?_, ?_⟩
    · exact hrun _ _ (abs_lt.mpr ⟨by norm_num, by norm_num⟩)
    · exact hrun _ _ (abs_lt.mpr ⟨by norm_num, by norm_num⟩)
    · exact hrun _ _ (abs_lt.mpr ⟨by norm_num, by norm_num⟩)
    · exact hstop _ _ (le_abs.mpr (Or.inl (by norm_num)))
    · exact hstop _ _ (le_abs.mpr (Or.inl (by norm_num)))
    · exact hstop _ _ (le_abs.mpr (Or.inr (by norm_num)))
    · exact hstop _ _ (le_abs.mpr (Or.inl (by norm_num)))
    · exact hstop _ _ (le_abs.mpr (Or.inr (by norm_num)))

/-- C2: the calibrator acquires exactly 512 samples (the result
depends on the stream only at indices below 512, and the loop bound
and the 5 ms pacing constant are as stated), sums each of the six axes
and computes each axis offset as the integer mean, the sum divided by
512; on a stream whose non-gravity axis is the constant v, that axis
offset is exactly v. -/
theorem C2_calibration_mean (read : Nat → Sample) (blinks : Nat → Bool) (led0 : Bool)
    (hb : ∀ i, i < 512 → (read i).bounded) :
    (calibSampleCount = 512)
    ∧ (calibSampleDelayMs = 5)
    ∧ ((calibrate read blinks led0).1.off.ay_offset = axisMean read Sample.ay)
    ∧ ((calibrate read blinks led0).1.off.az_offset = axisMean read Sample.az)
    ∧ ((calibrate read blinks led0).1.off.gx_offset = axisMean read Sample.gx)
    ∧ ((calibrate read blinks led0).1.off.gy_offset = axisMean read Sample.gy)
    ∧ ((calibrate read blinks led0).1.off.gz_offset = axisMean read Sample.gz)
    ∧ (∀ read2, (∀ i, i < 512 → read i = read2 i) →
        calibrate read blinks led0 = calibrate read2 blinks led0)
    ∧ (∀ v : Int,
        ((∀ i, i < 512 → (read i).ay = v) →
          (calibrate read blinks led0).1.off.ay_offset = v)
        ∧ ((∀ i, i < 512 → (read i).az = v) →
          (calibrate read blinks led0).1.off.az_offset = v)
        ∧ ((∀ i, i < 512 → (read i).gx = v) →
          (calibrate read blinks led0).1.off.gx_offset = v)
        ∧ ((∀ i, i < 512 → (read i).gy = v) →
          (calibrate read blinks led0).1.off.gy_offset = v)
        ∧ ((∀ i, i < 512 → (read i).gz = v) →
          (calibrate read blinks led0).1.off.gz_offset = v)) := by
  have p := calibrate_parts read blinks led0 hb
  have hmean : ∀ (f : Sample → Int) (v : Int), (∀ i, i < 512 → f (read i) = v) →
      axisSum read f / 512 = v := by
    intro f v hc
    have h := axisMean_of_const read f v hc
    rw [axisMean_def] at h
    exact h
  refine ⟨rfl, rfl, ?_, ?_, ?_, ?_, ?_, ?_, ?_⟩
  · rw [p.1, axisMean_def]
  · rw [p.2.1, axisMean_def]
  · rw [p.2.2.1, axisMean_def]
  · rw [p.2.2.2.1, axisMean_def]
  · rw [p.2.2.2.2.1, axisMean_def]
  · intro read2 h12
    unfold calibrate
    exact congrArg calibFinish
      (calib_read_congr read read2 blinks (List.range 512) _
        (fun i hi => h12 i (List.mem_range.mp hi)))
  · intro v
    exact ⟨fun hc => by rw [p.1]; exact hmean Sample.ay v hc,
      fun hc => by rw [p.2.1]; exact hmean Sample.az v hc,
      fun hc => by rw [p.2.2.1]; exact hmean Sample.gx v hc,
      fun hc => by rw [p.2.2.2.1]; exact hmean Sample.gy v hc,
      fun hc => by rw [p.2.2.2.2.1]; exact hmean Sample.gz v hc⟩

/-- Witness for C2 at the constant stream with ay = 2: the bounds
hypothesis holds and the computed ay offset is exactly 2. -/
theorem C2_witness :
    (∀ i, i < 512 → ((fun _ => (⟨1, 2, 3, 4, 5, 6⟩ : Sample)) i).bounded)
    ∧ (calibrate (fun _ => ⟨1, 2, 3, 4, 5, 6⟩) (fun _ => false) false).1.off.ay_offset = 2 := by
  have hb : ∀ i, i < 512 → ((fun _ => (⟨1, 2, 3, 4, 5, 6⟩ : Sample)) i).bounded :=
    fun i _ => (by decide : Sample.bounded ⟨1, 2, 3, 4, 5, 6⟩)
  have h := C2_calibration_mean (fun _ => ⟨1, 2, 3, 4, 5, 6⟩) (fun _ => false) false hb
  exact ⟨hb, (h.2.2.2.2.2.2.2.2 2).1 (fun i _ => rfl)⟩

/-- C3: the orientation flag is up exactly when the gravity-axis mean
is strictly positive, down otherwise (a mean of exactly zero resolves
to down); when up the gravity offset is the mean minus 16384, when
down it is the mean plus 16384. -/
theorem C3_orientation (read : Nat → Sample) (blinks : Nat → Bool) (led0 : Bool)
    (hb : ∀ i, i < 512 → (read i).bounded) :
    ((calibrate read blinks led0).1.startPositionIsUp = true
      ↔ axisMean read Sample.ax > 0)
    ∧ ((calibrate read blinks led0).1.startPositionIsUp = false
      ↔ axisMean read Sample.ax ≤ 0)
    ∧ (axisMean read Sample.ax > 0 →
        (calibrate read blinks led0).1.off.ax_offset = axisMean read Sample.ax - 16384)
    ∧ (axisMean read Sample.ax ≤ 0 →
        (calibrate read blinks led0).1.off.ax_offset = axisMean read Sample.ax + 16384)
    ∧ (axisMean read Sample.ax = 0 →
        (calibrate read blinks led0).1.startPositionIsUp = false) := by
  have p := calibrate_parts read blinks led0 hb
  have hup : (calibrate read blinks led0).1.startPositionIsUp = true
      ↔ axisMean read Sample.ax > 0 := by
    rw [axisMean_def]
    exact p.2.2.2.2.2.1
  have hdown : (calibrate read blinks led0).1.startPositionIsUp = false
      ↔ axisMean read Sample.ax ≤ 0 := by
    have hcases : (calibrate read blinks led0).1.startPositionIsUp = false
        ↔ ¬ ((calibrate read blinks led0).1.startPositionIsUp = true) := by
      cases (calibrate read blinks led0).1.startPositionIsUp <;> simp
    rw [hcases, hup, gt_iff_lt, not_lt]
  refine ⟨hup, hdown, ?_, ?_, ?_⟩
  · intro h
    rw [axisMean_def] at h ⊢
    rw [p.2.2.2.2.2.2.1 h]
  · intro h
    rw [axisMean_def] at h ⊢
    rw [p.2.2.2.2.2.2.2 (by rw [gt_iff_lt, not_lt]; exact h)]
  · intro h
    exact hdown.mpr (le_of_eq h)

/-- Witness for C3 at the constant stream with ax = 100: the mean is
positive, the flag is up and the gravity offset is mean minus 16384. -/
theorem C3_witness :
    (axisMean (fun _ => (⟨100, 0, 0, 0, 0, 0⟩ : Sample)) Sample.ax > 0)
    ∧ (calibrate (fun _ => ⟨100, 0, 0, 0, 0, 0⟩) (fun _ => false) false).1.startPositionIsUp = true
    ∧ (calibrate (fun _ => ⟨100, 0, 0, 0, 0, 0⟩) (fun _ => false) false).1.off.ax_offset
        = axisMean (fun _ => (⟨100, 0, 0, 0, 0, 0⟩ : Sample)) Sample.ax - 16384 := by
  have hb : ∀ i, i < 512 → ((fun _ => (⟨100, 0, 0, 0, 0, 0⟩ : Sample)) i).bounded :=
    fun i _ => (by decide : Sample.bounded ⟨100, 0, 0, 0, 0, 0⟩)
  have hm : axisMean (fun _ => (⟨100, 0, 0, 0, 0, 0⟩ : Sample)) Sample.ax = 100 :=
    axisMean_of_const _ _ _ (fun i _ => rfl)
  have h := C3_orientation (fun _ => ⟨100, 0, 0, 0, 0, 0⟩) (fun _ => false) false hb
  have hpos : axisMean (fun _ => (⟨100, 0, 0, 0, 0, 0⟩ : Sample)) Sample.ax > 0 := by
    rw [hm]
    norm_num
  exact ⟨hpos, h.1.mpr hpos, h.2.2.1 hpos⟩

/-- C4 counterexample: on the stated flat-down stream (ax = -16200 on
all 512 samples, all other axes 0) the gravity offset is not 200: the
code computes -16200 + 16384 = 184. -/
theorem C4_counterexample :
    (calibrate (fun _ => ⟨-16200, 0, 0, 0, 0, 0⟩) (fun _ => false) false).1.off.ax_offset
      ≠ 200 := by
  have hb : ∀ i, i < 512 → ((fun _ => (⟨-16200, 0, 0, 0, 0, 0⟩ : Sample)) i).bounded :=
    fun i _ => (by decide : Sample.bounded ⟨-16200, 0, 0, 0, 0, 0⟩)
  have hm : axisMean (fun _ => (⟨-16200, 0, 0, 0, 0, 0⟩ : Sample)) Sample.ax = -16200 :=
    axisMean_of_const _ _ _ (fun i _ => rfl)
  rw [axisMean_def] at hm
  have p := calibrate_parts (fun _ => ⟨-16200, 0, 0, 0, 0, 0⟩) (fun _ => false) false hb
  have hval := p.2.2.2.2.2.2.2 (by rw [hm]; norm_num)
  rw [hval, hm]
  norm_num

/-- C4 amended: on the flat-down stream (ax = -16200 on all 512
samples, all other axes 0) the gravity offset is 184 (that is,
-16200 + 16384), the orientation flag is down, and the Kalman seed
angle is -90 degrees. -/
theorem C4_down_scenario :
    ((calibrate (fun _ => ⟨-16200, 0, 0, 0, 0, 0⟩) (fun _ => false) false).1.off.ax_offset = 184)
    ∧ ((calibrate (fun _ => ⟨-16200, 0, 0, 0, 0, 0⟩) (fun _ => false) false).1.startPositionIsUp
        = false)
    ∧ (seedAngle
        (calibrate (fun _ => ⟨-16200, 0, 0, 0, 0, 0⟩) (fun _ => false) false).1.startPositionIsUp
        = -90) := by
  have hb : ∀ i, i < 512 → ((fun _ => (⟨-16200, 0, 0, 0, 0, 0⟩ : Sample)) i).bounded :=
    fun i _ => (by decide : Sample.bounded ⟨-16200, 0, 0, 0, 0, 0⟩)
  have hm : axisMean (fun _ => (⟨-16200, 0, 0, 0, 0, 0⟩ : Sample)) Sample.ax = -16200 :=
    axisMean_of_const _ _ _ (fun i _ => rfl)
  rw [axisMean_def] at hm
  have p := calibrate_parts (fun _ => ⟨-16200, 0, 0, 0, 0, 0⟩) (fun _ => false) false hb
  have hneg : ¬ axisSum (fun _ => (⟨-16200, 0, 0, 0, 0, 0⟩ : Sample)) Sample.ax / 512 > 0 := by
    rw [hm]
    norm_num
  have hval := p.2.2.2.2.2.2.2 hneg
  have hflag : (calibrate (fun _ => ⟨-16200, 0, 0, 0, 0, 0⟩) (fun _ => false)
      false).1.startPositionIsUp = false := by
    cases hcase : (calibrate (fun _ => ⟨-16200, 0, 0, 0, 0, 0⟩) (fun _ => false)
        false).1.startPositionIsUp
    · rfl
    · exact absurd (p.2.2.2.2.2.1.mp hcase) hneg
  refine ⟨?_, hflag, ?_⟩
  · rw [hval, hm]
    norm_num
  · rw [hflag]
    rfl

/-- C5: getAccAngle is a pure function of its two arguments equal to
the four-quadrant inverse tangent of (accX, -accZ) in degrees: it is 0
at (0, -1), 90 at (1, 0), -90 at (-1, 0), 180 at (0, 1), lands in
(0, 180] whenever accX is positive and in [-180, 0) whenever accX is
negative, and is 0 or 180 on the accX = 0 line. -/
theorem C5_acc_angle :
    (getAccAngle 0 (-1) = 0)
    ∧ (getAccAngle 1 0 = 90)
    ∧ (getAccAngle (-1) 0 = -90)
    ∧ (getAccAngle 0 1 = 180)
    ∧ (∀ x z : ℝ, 0 < x → 0 < getAccAngle x z ∧ getAccAngle x z ≤ 180)
    ∧ (∀ x z : ℝ, x < 0 → -180 ≤ getAccAngle x z ∧ getAccAngle x z < 0)
    ∧ (∀ z : ℝ, getAccAngle 0 z = 0 ∨ getAccAngle 0 z = 180) := by
  have hpi := Real.pi_ne_zero
  refine ⟨?_, ?_, ?_, ?_, ?_, ?_, ?_⟩
  · unfold getAccAngle
    rw [show -(-1 : ℝ) = 1 by norm_num, atan2_of_pos (by norm_num : (0:ℝ) < 1),
      show (0:ℝ) / 1 = 0 by norm_num, Real.arctan_zero, zero_mul]
  · unfold getAccAngle
    rw [neg_zero, atan2_zero_of_pos (by norm_num : (0:ℝ) < 1)]
    field_simp
    ring
  · unfold getAccAngle
    rw [neg_zero, atan2_zero_of_neg (by norm_num : (-1:ℝ) < 0)]
    field_simp
    ring
  · unfold getAccAngle
    rw [atan2_of_neg_nonneg (by norm_num : -(1:ℝ) < 0) (le_refl 0),
      show (0:ℝ) / -1 = 0 by norm_num, Real.arctan_zero, zero_add]
    field_simp
  · intro x z hx
    have hb := atan2_pos_bounds (-z) hx
    exact deg_scale_pos hb.1 hb.2
  · intro x z hx
    have hb := atan2_neg_bounds (-z) hx
    exact deg_scale_neg hb.1 hb.2
  · intro z
    rcases lt_trichotomy z 0 with hz | hz | hz
    · left
      unfold getAccAngle
      rw [atan2_of_pos (neg_pos.mpr hz), zero_div, Real.arctan_zero, zero_mul]
    · left
      rw [hz]
      unfold getAccAngle
      rw [neg_zero, atan2_zero_zero, zero_mul]
    · right
      unfold getAccAngle
      rw [atan2_of_neg_nonneg (neg_lt_zero.mpr hz) (le_refl 0), zero_div,
        Real.arctan_zero, zero_add]
      field_simp

/-- Witness for C5 at accX = 1, accZ = 1: the positivity hypothesis of
the quadrant clause holds and the angle lies in (0, 180]. -/
theorem C5_witness :
    (0 : ℝ) < 1 ∧ (0 < getAccAngle 1 1 ∧ getAccAngle 1 1 ≤ 180) := by
  constructor
  · norm_num
  · exact C5_acc_angle.2.2.2.2.1 1 1 (by norm_num)

/-- C6: the loop stores the start-of-cycle clock value as the new
previous timestamp, and the cycle delta of the following cycle spans
from this cycle start to the next cycle start, so this cycle
processing time is charged to the next delta. -/
theorem C6_timestamp :
    (∀ aO kO pO s t raw,
      ((loopStep aO kO pO s t raw).1.oldTime = t % 4294967296)
      ∧ ((loopStep aO kO pO s t raw).2.dt_usec = usub32 t s.oldTime))
    ∧ (∀ aO kO pO s t1 raw1 t2 raw2,
        (loopStep aO kO pO (loopStep aO kO pO s t1 raw1).1 t2 raw2).2.dt_usec
          = usub32 t2 t1) := by
  constructor
  · intro aO kO pO s t raw
    exact ⟨rfl, rfl⟩
  · intro aO kO pO s t1 raw1 t2 raw2
    show usub32 t2 (t1 % 4294967296) = usub32 t2 t1
    unfold usub32
    omega

/-- C7: the offsets are never mutated by a loop iteration nor by any
number of iterations, every physical value entering the oracles is
computed from the offset-corrected sample, and the cycle output
depends on the raw sample only through its corrected form. -/
theorem C7_offsets_invariant :
    ∀ aO kO pO s t raw,
      ((loopStep aO kO pO s t raw).1.off = s.off)
      ∧ (∀ sched, (runFrom aO kO pO s sched).1.off = s.off)
      ∧ ((loopStep aO kO pO s t raw).2.gyroYRate
          = ((readSensor raw s.off).gy : ℚ) / (131072 / 1000))
      ∧ ((loopStep aO kO pO s t raw).2.accX
          = (((readSensor raw s.off).ax : ℚ) * (981 / 100)) / 16384)
      ∧ ((loopStep aO kO pO s t raw).2.accZ
          = (((readSensor raw s.off).az : ℚ) * (981 / 100)) / 16384)
      ∧ ((loopStep aO kO pO s t raw).2.accAngle
          = aO (loopStep aO kO pO s t raw).2.accX (loopStep aO kO pO s t raw).2.accZ)
      ∧ ((loopStep aO kO pO s t raw).2.kalmanAngle
          = kO (loopStep aO kO pO s t raw).2.accAngle
              (loopStep aO kO pO s t raw).2.gyroYRate
              (loopStep aO kO pO s t raw).2.dt_sec)
      ∧ (∀ raw2, readSensor raw s.off = readSensor raw2 s.off →
          loopStep aO kO pO s t raw = loopStep aO kO pO s t raw2) := by
  have hrun : ∀ (aO : ℚ → ℚ → ℚ) (kO : ℚ → ℚ → ℚ → ℚ) (pO : ℚ → ℚ → ℚ)
      (sched : List (Nat × Sample)) (s : LoopState),
      (runFrom aO kO pO s sched).1.off = s.off := by
    intro aO kO pO sched
    induction sched with
    | nil => intro s; rfl
    | cons p rest ih =>
      intro s
      obtain ⟨t, raw⟩ := p
      show (runFrom aO kO pO (loopStep aO kO pO s t raw).1 rest).1.off = s.off
      rw [ih ((loopStep aO kO pO s t raw).1)]
      rfl
  intro aO kO pO s t raw
  refine ⟨rfl, fun sched => hrun aO kO pO sched s, rfl, rfl, rfl, rfl, rfl, ?_⟩
  intro raw2 h
  unfold loopStep
  rw [h]

/-- Witness for C7: two distinct raw samples whose corrected forms
coincide by 16-bit wrap produce identical cycle results. -/
theorem C7_witness :
    (readSensor ⟨65536, 0, 0, 0, 0, 0⟩ ⟨0, 0, 0, 0, 0, 0⟩
      = readSensor ⟨0, 0, 0, 0, 0, 0⟩ ⟨0, 0, 0, 0, 0, 0⟩)
    ∧ (loopStep (fun a _ => a) (fun a _ _ => a) (fun a _ => a)
        ⟨⟨0, 0, 0, 0, 0, 0⟩, 0⟩ 0 ⟨65536, 0, 0, 0, 0, 0⟩
      = loopStep (fun a _ => a) (fun a _ _ => a) (fun a _ => a)
        ⟨⟨0, 0, 0, 0, 0, 0⟩, 0⟩ 0 ⟨0, 0, 0, 0, 0, 0⟩) := by
  have h : readSensor (⟨65536, 0, 0, 0, 0, 0⟩ : Sample) ⟨0, 0, 0, 0, 0, 0⟩
      = readSensor ⟨0, 0, 0, 0, 0, 0⟩ ⟨0, 0, 0, 0, 0, 0⟩ := by decide
  exact ⟨h,
    (C7_offsets_invariant (fun a _ => a) (fun a _ _ => a) (fun a _ => a)
      ⟨⟨0, 0, 0, 0, 0, 0⟩, 0⟩ 0 ⟨65536, 0, 0, 0, 0, 0⟩).2.2.2.2.2.2.2
      ⟨0, 0, 0, 0, 0, 0⟩ h⟩

/-- C8: a failed connectivity test halts setup before any control
state: the result is halted, no motor action is ever issued over any
schedule, and the sample stream is never consulted (calibration does
not run); a successful test proceeds to calibration and hands the
calibrated state and Kalman seed to the loop. -/
theorem C8_connectivity_gate :
    ∀ (read : Nat → Sample) (blinks : Nat → Bool) (led0 : Bool) (t : Nat),
      (setup false read blinks led0 t = SetupResult.halted)
      ∧ (∀ aO kO pO sched, runActions aO kO pO (setup false read blinks led0 t) sched = [])
      ∧ (∀ read2 blinks2 led02 t2,
          setup false read blinks led0 t = setup false read2 blinks2 led02 t2)
      ∧ (setup true read blinks led0 t
          = SetupResult.ready ⟨(calibrate read blinks led0).1.off, t % 4294967296⟩
              (seedAngle (calibrate read blinks led0).1.startPositionIsUp)) := by
  intro read blinks led0 t
  have h1 : setup false read blinks led0 t = SetupResult.halted := rfl
  refine ⟨h1, fun aO kO pO sched => ?_, fun read2 blinks2 led02 t2 => ?_, rfl⟩
  · rw [h1]
    rfl
  · rw [h1]
    have h2 : setup false read2 blinks2 led02 t2 = SetupResult.halted := rfl
    rw [h2]

/-- C9: the blinking of the status indicator during calibration has no
effect on the computed offsets and orientation flag: for one fixed
sample stream, any two blink schedules and initial led states yield
the same calibration result. -/
theorem C9_blink_noninterference :
    ∀ (read : Nat → Sample) (blinks blinks2 : Nat → Bool) (led0 led02 : Bool),
      (calibrate read blinks led0).1 = (calibrate read blinks2 led02).1 := by
  intro read blinks blinks2 led0 led02
  unfold calibrate
  rw [calib_foldl_zero, calib_foldl_zero]
  apply calibFinish_led_irrel <;> rfl

/-- C10: each corrected axis value stored by readSensor is the exact
difference of the raw reading and the 32-bit offset reduced modulo
2^16 into the signed 16-bit range: it always lies in that range, is
congruent to the exact difference modulo 65536, equals it exactly when
the difference is representable, and wraps away from it otherwise. -/
theorem C10_wrap (raw : Sample) (o : Offsets) (hb : raw.bounded) :
    ((readSensor raw o).ax = toInt16 (raw.ax - o.ax_offset))
    ∧ ((readSensor raw o).ay = toInt16 (raw.ay - o.ay_offset))
    ∧ ((readSensor raw o).az = toInt16 (raw.az - o.az_offset))
    ∧ ((readSensor raw o).gx = toInt16 (raw.gx - o.gx_offset))
    ∧ ((readSensor raw o).gy = toInt16 (raw.gy - o.gy_offset))
    ∧ ((readSensor raw o).gz = toInt16 (raw.gz - o.gz_offset))
    ∧ (∀ d : Int, (-32768 ≤ toInt16 d ∧ toInt16 d < 32768)
        ∧ ((65536 : Int) ∣ (d - toInt16 d))
        ∧ (inInt16 d → toInt16 d = d)
        ∧ (¬ inInt16 d → toInt16 d ≠ d)) := by
  refine ⟨rfl, rfl, rfl, rfl, rfl, rfl, ?_⟩
  intro d
  refine ⟨by unfold toInt16; omega,
    ⟨(d + 32768) / 65536, by unfold toInt16; omega⟩, ?_, ?_⟩
  · intro h
    obtain ⟨h1, h2⟩ := h
    unfold toInt16
    omega
  · intro h heq
    apply h
    unfold inInt16
    rw [← heq]
    unfold toInt16
    omega

/-- Witness for C10: the int16 raw reading -32768 with offset 1 wraps
to 32767 instead of the exact difference -32769. -/
theorem C10_witness :
    Sample.bounded ⟨-32768, 0, 0, 0, 0, 0⟩
    ∧ (readSensor ⟨-32768, 0, 0, 0, 0, 0⟩ ⟨1, 0, 0, 0, 0, 0⟩).ax = 32767 := by
  have h := C10_wrap ⟨-32768, 0, 0, 0, 0, 0⟩ ⟨1, 0, 0, 0, 0, 0⟩ (by decide)
  refine ⟨by decide, ?_⟩
  rw [h.1]
  decide

end Ercolino
